import Mathlib

/-!
Verification of the msigner multi-chain Ordinals PSBT signer.

This file gives a shallow embedding of the core of the repository
(src/signer.ts, src/util.ts, src/constant.ts and the fee provider) and
proves properties of the embedded definitions.  Values in satoshis are
modelled as Int (JS numbers used as integers); Math.floor on a quotient
of integers with positive divisor is Int.fdiv; fallible code returns
Except or Option.  External providers (node RPC, inscription indexer,
fee oracle, address codecs of bitcoinjs-lib) are modelled as explicit
function-valued environments.
-/

-- =========================================================================
-- String helpers (JS String.prototype.split, Number, parseInt)
-- =========================================================================

/-- Model of JS String.prototype.split on a single separator character:
splits the character list at every occurrence of the separator. -/
def splitOnCharAux (sep : Char) : List Char → List Char → List (List Char)
  | [], acc => [acc.reverse]
  | x :: xs, acc =>
    if x = sep then acc.reverse :: splitOnCharAux sep xs []
    else splitOnCharAux sep xs (x :: acc)

/-- Split a character list on a separator character (JS split semantics:
the result always has at least one component, and components are the
maximal separator-free runs). -/
def splitOnChar (sep : Char) (s : List Char) : List (List Char) :=
  splitOnCharAux sep s []

/-- Numeric value of a decimal digit character. -/
def digitVal? (c : Char) : Option Nat :=
  if '0' ≤ c ∧ c ≤ '9' then some (c.toNat - '0'.toNat) else none

/-- Accumulate decimal digits; none when a non-digit occurs. -/
def parseNatAux : List Char → Nat → Option Nat
  | [], acc => some acc
  | c :: cs, acc =>
    match digitVal? c with
    | some d => parseNatAux cs (acc * 10 + d)
    | none => none

/-- Parse a nonempty all-decimal-digit character list. -/
def parseNatAll (l : List Char) : Option Nat :=
  if l.isEmpty then none else parseNatAux l 0

/-- Model of JS Number() restricted to the integer strings that appear in
txid:vout:offset components: empty string is 0 (as in JS), an optional
leading minus sign followed by decimal digits is the signed value, and
anything else is NaN (none). -/
def jsNumber : List Char → Option Int
  | [] => some 0
  | '-' :: rest => (parseNatAll rest).map (fun n => -(n : Int))
  | l => (parseNatAll l).map (fun n => (n : Int))

/-- Model of JS parseInt restricted to all-decimal-digit strings (the
form vout components take); none models NaN. -/
def jsParseInt (l : List Char) : Option Nat :=
  parseNatAll l

/-- The satoshi offset of an inscription: the third colon-separated
component of ordItem.location, converted with Number()
(signer.ts line 522). -/
def locationOffset (loc : String) : Option Int :=
  match (splitOnChar ':' loc.data)[2]? with
  | some comp => jsNumber comp
  | none => none

/-- Parse an outpoint string txid:vout into its first two components,
with parseInt on the vout (extra components are ignored, as in the
destructuring of String.split in signer.ts lines 171-172 and 431-432). -/
def parseOutpoint (s : String) : Option (String × Nat) :=
  match splitOnChar ':' s.data with
  | t :: v :: _ => (jsParseInt v).map (fun n => (String.mk t, n))
  | _ => none

/-- Hex digit character for a value below 16. -/
def hexDigitChar (n : Nat) : Char :=
  if n < 10 then Char.ofNat ('0'.toNat + n)
  else Char.ofNat ('a'.toNat + (n - 10))

/-- Lowercase hex rendering of a byte list. -/
def bytesToHex : List Nat → List Char
  | [] => []
  | b :: rest => hexDigitChar (b / 16 % 16) :: hexDigitChar (b % 16) :: bytesToHex rest

/-- util.ts generateTxidFromHash: reverse the byte order of a hash and
render it as lowercase hex. -/
def generateTxidFromHash (hash : List Nat) : String :=
  String.mk (bytesToHex hash.reverse)

-- =========================================================================
-- Fee provider (src/vendors/feeprovider.ts)
-- =========================================================================

/-- feeprovider.ts calculateTxBytesFeeWithRate: legacy transaction size
model, base 10 bytes, 180 bytes per input, 34 bytes per output, plus
includeChangeOutput (default 1 at every call site of the repository)
times 34 bytes, multiplied by the fee rate. -/
def calculateTxBytesFeeWithRate
    (vinsLength voutsLength feeRate includeChangeOutput : Int) : Int :=
  (10 + vinsLength * 180 + voutsLength * 34 + includeChangeOutput * 34) * feeRate

/-- feeprovider.ts getSellerOrdOutputValue: listing price, less maker fee
(floored basis-point fraction), plus the value of the ordinal UTXO
returned to the seller. -/
def getSellerOrdOutputValue (price makerFeeBp prevUtxoValue : Int) : Int :=
  price - Int.fdiv (price * makerFeeBp) 10000 + prevUtxoValue

-- =========================================================================
-- Data model (constant.ts, interfaces, providers)
-- =========================================================================

/-- constant.ts BUYING_PSBT_SELLER_SIGNATURE_INDEX. -/
def BUYING_PSBT_SELLER_SIGNATURE_INDEX : Nat := 2

/-- constant.ts BUYING_PSBT_BUYER_RECEIVE_INDEX. -/
def BUYING_PSBT_BUYER_RECEIVE_INDEX : Nat := 1

/-- constant.ts BUYING_PSBT_PLATFORM_FEE_INDEX. -/
def BUYING_PSBT_PLATFORM_FEE_INDEX : Nat := 3

/-- Runtime configuration of constant.ts (values read from the
environment with the listed defaults) together with the resolved fee
oracle (feeProvider.getFees by tier). -/
structure Config where
  dummyUtxoValue : Int
  dummyUtxoMaxValue : Int
  dummyUtxoMinValue : Int
  ordinalsPostageValue : Int
  platformFeeAddress : String
  feeRate : String → Int

/-- The constant.ts defaults: DUMMY_UTXO_VALUE 600, max 1000, min 580,
ORDINALS_POSTAGE_VALUE 10000, PLATFORM_FEE_ADDRESS empty. -/
def defaultConfig : Config :=
  { dummyUtxoValue := 600
    dummyUtxoMaxValue := 1000
    dummyUtxoMinValue := 580
    ordinalsPostageValue := 10000
    platformFeeAddress := ""
    feeRate := fun _ => 1 }

/-- providers.ts IOrdItem, restricted to the fields the core reads. -/
structure IOrdItem where
  id : String
  owner : String
  location : String
  output : String
  outputValue : Int
  deriving DecidableEq, Repr

/-- A mempool AddressTxsUtxo: outpoint, value and confirmation status. -/
structure Utxo where
  txid : String
  vout : Nat
  value : Int
  confirmed : Bool
  deriving DecidableEq, Repr

/-- util.ts MappedUtxo; the attached raw transaction is kept abstract
(only its existence matters to the claims). -/
structure MappedUtxo where
  txid : String
  vout : Nat
  value : Int
  confirmed : Bool
  deriving DecidableEq, Repr

/-- An input of the unsigned transaction inside a PSBT.  bitcoinjs
stores the transaction hash in reversed byte order and the repository
converts it back with util.ts generateTxidFromHash wherever it is read;
the embedding keeps the hash in txid display form throughout, so that
round trip is the identity here. -/
structure PsbtInput where
  hash : String
  index : Nat
  deriving DecidableEq, Repr

/-- Per-input PSBT metadata (psbt.data.inputs entries): the fields the
core reads or writes. -/
structure InputMeta where
  tapInternalKey : Option String
  finalScriptWitness : Option (List Nat)
  sighashType : Option Nat
  deriving DecidableEq, Repr

/-- An output of the unsigned transaction inside a PSBT.  bitcoinjs
renders the script as an address; the embedding stores the address
directly. -/
structure PsbtOutput where
  address : String
  value : Int
  deriving DecidableEq, Repr

/-- A decoded PSBT: unsigned-transaction inputs, the parallel list of
per-input PSBT metadata, outputs, and the remaining transaction-level
fields (version, locktime). -/
structure Psbt where
  inputs : List PsbtInput
  dataInputs : List InputMeta
  outputs : List PsbtOutput
  version : Int
  locktime : Int
  deriving DecidableEq, Repr

instance : Inhabited Psbt := ⟨⟨[], [], [], 2, 0⟩⟩

/-- signer.ts IListingState.seller. -/
structure SellerState where
  makerFeeBp : Int
  price : Int
  ordItem : IOrdItem
  sellerReceiveAddress : String
  tapInternalKey : Option String
  deriving DecidableEq, Repr

/-- signer.ts IListingState.buyer.  The empty string models an unset
(undefined) address, matching the JS falsiness checks; the produced
PSBT is stored in place of its base64 serialization. -/
structure BuyerState where
  takerFeeBp : Int
  buyerAddress : String
  buyerTokenReceiveAddress : String
  feeRateTier : String
  buyerDummyUTXOs : Option (List MappedUtxo)
  buyerPaymentUTXOs : Option (List Utxo)
  unsignedBuyingPSBT : Option Psbt
  unsignedBuyingPSBTInputSize : Option Nat

/-- signer.ts IListingState. -/
structure Listing where
  seller : SellerState
  buyer : Option BuyerState

-- =========================================================================
-- Seller half (SellerSigner.generateUnsignedListingPSBTBase64)
-- =========================================================================

/-- SellerSigner.generateUnsignedListingPSBTBase64 (signer.ts 163-219):
one input at the ordinal outpoint with sighash SINGLE|ANYONECANPAY
(0x83 = 131), one output paying the seller receive address the
getSellerOrdOutputValue amount.  The PSBT itself stands in for its
base64 serialization. -/
def generateUnsignedListingPSBT (l : Listing) : Except String Psbt :=
  match parseOutpoint l.seller.ordItem.output with
  | none => Except.error "invalid ordinal outpoint"
  | some (ordTxid, ordVout) =>
    Except.ok
      { inputs := [⟨ordTxid, ordVout⟩]
        dataInputs := [⟨l.seller.tapInternalKey, none, some 131⟩]
        outputs :=
          [⟨l.seller.sellerReceiveAddress,
            getSellerOrdOutputValue l.seller.price l.seller.makerFeeBp
              l.seller.ordItem.outputValue⟩]
        version := 2
        locktime := 0 }

-- =========================================================================
-- Buyer half (BuyerSigner.generateUnsignedBuyingPSBTBase64)
-- =========================================================================

/-- Sum of the values of a list of payment UTXOs. -/
def sumUtxoValues : List Utxo → Int
  | [] => 0
  | u :: rest => u.value + sumUtxoValues rest

/-- Sum of the values of a list of PSBT outputs. -/
def sumOutputValues : List PsbtOutput → Int
  | [] => 0
  | o :: rest => o.value + sumOutputValues rest

/-- The platform fee address used by the buying PSBT (signer.ts 561):
the explicit argument when set, else the PLATFORM_FEE_ADDRESS
environment constant; the empty string models an unset value. -/
def resolvedPlatformFeeAddress (cfg : Config) (platformFeeAddressArg : String) : String :=
  if platformFeeAddressArg ≠ "" then platformFeeAddressArg else cfg.platformFeeAddress

/-- The platform fee value (signer.ts 562-567):
floor(price * (takerFeeBp + makerFeeBp) / 10000), clamped to 0 unless
strictly greater than DUMMY_UTXO_MIN_VALUE. -/
def buyingPlatformFeeValue (cfg : Config) (b : BuyerState) (s : SellerState) : Int :=
  let v := Int.fdiv (s.price * (b.takerFeeBp + s.makerFeeBp)) 10000
  if v > cfg.dummyUtxoMinValue then v else 0

/-- The outputs of the buying PSBT before the change output, in the
order signer.ts adds them: recombined-dummy output, ordinal receive
output, seller output, optional platform fee output, and two fresh
dummy outputs. -/
def buyingOutputsBase (cfg : Config) (feeAddr : String) (b : BuyerState)
    (s : SellerState) (d1 d2 : MappedUtxo) (off : Int) : List PsbtOutput :=
  [⟨b.buyerAddress, d1.value + d2.value + off⟩,
   ⟨b.buyerTokenReceiveAddress, cfg.ordinalsPostageValue⟩,
   ⟨s.sellerReceiveAddress,
    getSellerOrdOutputValue s.price s.makerFeeBp s.ordItem.outputValue⟩]
  ++ (if buyingPlatformFeeValue cfg b s > 0 ∧ feeAddr ≠ "" then
        [⟨feeAddr, buyingPlatformFeeValue cfg b s⟩]
      else [])
  ++ [⟨b.buyerAddress, cfg.dummyUtxoValue⟩, ⟨b.buyerAddress, cfg.dummyUtxoValue⟩]

/-- The inputs of the buying PSBT, in the order signer.ts adds them:
the two dummy UTXOs, the seller ordinal input, then the payment UTXOs. -/
def buyingInputs (ordTxid : String) (ordVout : Nat) (d1 d2 : MappedUtxo)
    (pays : List Utxo) : List PsbtInput :=
  [⟨d1.txid, d1.vout⟩, ⟨d2.txid, d2.vout⟩, ⟨ordTxid, ordVout⟩]
  ++ pays.map (fun u => ⟨u.txid, u.vout⟩)

/-- Total input value accumulated by the buying construction
(dummy values plus payment values; signer.ts 492, 513, 557). -/
def buyingTotalInput (d1 d2 : MappedUtxo) (pays : List Utxo) : Int :=
  d1.value + d2.value + sumUtxoValues pays

/-- The network fee of the buying transaction (signer.ts 581-586):
calculateTxBytesFee at the input and pre-change output counts. -/
def buyingFee (cfg : Config) (tier : String) (nIns nOuts : Nat) : Int :=
  calculateTxBytesFeeWithRate nIns nOuts (cfg.feeRate tier) 1

/-- The change value of the buying transaction
(totalInput - totalOutput - fee, signer.ts 588-589). -/
def buyingChangeValue (cfg : Config) (feeAddr : String) (b : BuyerState)
    (s : SellerState) (d1 d2 : MappedUtxo) (pays : List Utxo) (off : Int) : Int :=
  let outs := buyingOutputsBase cfg feeAddr b s d1 d2 off
  buyingTotalInput d1 d2 pays - sumOutputValues outs
    - buyingFee cfg b.feeRateTier (buyingInputs "" 0 d1 d2 pays).length outs.length

/-- BuyerSigner.generateUnsignedBuyingPSBTBase64 (signer.ts 475-611),
PSBT-construction part.  Errors mirror the InvalidArgumentError throws:
unset buyer addresses, a dummy list of length other than two or a
missing payment list, and a negative change value.  A failing Number()
or parseInt() on the location offset or the ordinal outpoint (NaN
poisoning the constructed value) is also an error. -/
def buildBuyingPsbt (cfg : Config) (platformFeeAddressArg : String)
    (l : Listing) : Except String Psbt :=
  match l.buyer with
  | none => Except.error "Buyer address is not set"
  | some b =>
    if b.buyerAddress = "" then Except.error "Buyer address is not set"
    else if b.buyerTokenReceiveAddress = "" then Except.error "Buyer address is not set"
    else
      match b.buyerDummyUTXOs, b.buyerPaymentUTXOs with
      | some [d1, d2], some pays =>
        match locationOffset l.seller.ordItem.location with
        | none => Except.error "invalid location offset"
        | some off =>
          match parseOutpoint l.seller.ordItem.output with
          | none => Except.error "invalid ordinal outpoint"
          | some (ordTxid, ordVout) =>
            let feeAddr := resolvedPlatformFeeAddress cfg platformFeeAddressArg
            let ins := buyingInputs ordTxid ordVout d1 d2 pays
            let outsBase := buyingOutputsBase cfg feeAddr b l.seller d1 d2 off
            let changeValue := buyingChangeValue cfg feeAddr b l.seller d1 d2 pays off
            if changeValue < 0 then
              Except.error "Your wallet does not have enough funds to buy this inscription"
            else
              Except.ok
                { inputs := ins
                  dataInputs :=
                    [⟨none, none, none⟩, ⟨none, none, none⟩,
                     ⟨l.seller.tapInternalKey, none, none⟩]
                    ++ pays.map (fun _ => (⟨none, none, none⟩ : InputMeta))
                  outputs :=
                    outsBase
                    ++ (if changeValue > cfg.dummyUtxoMinValue then
                          [⟨b.buyerAddress, changeValue⟩]
                        else [])
                  version := 2
                  locktime := 0 }
      | _, _ => Except.error "Buyer address has not enough utxos"

/-- BuyerSigner.generateUnsignedBuyingPSBTBase64 including the final
assignment of the listing document (signer.ts 608-610): the buyer
fields unsignedBuyingPSBTBase64 and unsignedBuyingPSBTInputSize are
assigned only on the success path. -/
def generateUnsignedBuyingPSBTBase64 (cfg : Config) (platformFeeAddressArg : String)
    (l : Listing) : Except String Listing :=
  match buildBuyingPsbt cfg platformFeeAddressArg l with
  | Except.error e => Except.error e
  | Except.ok p =>
    Except.ok
      { l with
        buyer := l.buyer.map (fun b =>
          { b with
            unsignedBuyingPSBT := some p
            unsignedBuyingPSBTInputSize := some p.dataInputs.length }) }

-- =========================================================================
-- Inscription containment (BuyerSigner.doesUtxoContainInscription)
-- =========================================================================

/-- One entry of the vin array of a verbose transaction
(providers.ts IGetRawTransactionVerboseResult). -/
structure VinEntry where
  txid : String
  vout : Nat
  deriving DecidableEq, Repr

/-- A verbose transaction as returned by getrawtransactionVerbose,
restricted to the fields doesUtxoContainInscription reads. -/
structure VerboseTx where
  confirmations : Int
  vin : List VinEntry
  deriving DecidableEq, Repr

/-- The provider environment of the UTXO classifier: the inscription
indexer (getTokenByOutput, where an error result models a thrown
provider exception) and the node RPC verbose-transaction lookup. -/
structure ProviderEnv where
  getTokenByOutput : String → Except Unit (Option IOrdItem)
  getVerboseTx : String → VerboseTx

/-- The textual outpoint of a UTXO. -/
def utxoOutpoint (txid : String) (vout : Nat) : String :=
  txid ++ ":" ++ toString vout

/-- Whether the indexer taints an outpoint: a non-null item or a
provider error (the bare catch clauses of signer.ts 397-399, 415-417
return true). -/
def indexerTaints (env : ProviderEnv) (outpoint : String) : Bool :=
  match env.getTokenByOutput outpoint with
  | Except.ok r => r.isSome
  | Except.error _ => true

/-- The per-input loop of the unconfirmed branch of
doesUtxoContainInscription (signer.ts 404-418): an unconfirmed previous
transaction or an indexer taint (or error) on the previous outpoint
stops the scan with true. -/
def checkVinForInscription (env : ProviderEnv) : List VinEntry → Bool
  | [] => false
  | i :: rest =>
    if (env.getVerboseTx i.txid).confirmations = 0 then true
    else
      match env.getTokenByOutput (utxoOutpoint i.txid i.vout) with
      | Except.ok (some _) => true
      | Except.ok none => checkVinForInscription env rest
      | Except.error _ => true

/-- BuyerSigner.doesUtxoContainInscription (signer.ts 385-421). -/
def doesUtxoContainInscription (env : ProviderEnv) (u : Utxo) : Bool :=
  if u.confirmed then indexerTaints env (utxoOutpoint u.txid u.vout)
  else checkVinForInscription env (env.getVerboseTx u.txid).vin

-- =========================================================================
-- UTXO selection (BuyerSigner.selectDummyUTXOs / selectPaymentUTXOs)
-- =========================================================================

/-- BuyerSigner.selectDummyUTXOs (signer.ts 308-328): scan in the given
order, skip inscription-bearing UTXOs, take the first two whose value
falls within the dummy bounds; null when fewer than two qualify.  The
taint oracle abstracts the awaited doesUtxoContainInscription call. -/
def selectDummyUTXOs (cfg : Config) (taint : Utxo → Bool) :
    List Utxo → List Utxo → Option (List Utxo)
  | [], _ => none
  | u :: rest, acc =>
    if taint u then selectDummyUTXOs cfg taint rest acc
    else if cfg.dummyUtxoMinValue ≤ u.value ∧ u.value ≤ cfg.dummyUtxoMaxValue then
      if (acc ++ [u]).length = 2 then some (acc ++ [u])
      else selectDummyUTXOs cfg taint rest (acc ++ [u])
    else selectDummyUTXOs cfg taint rest acc

/-- The descending-by-value comparator of the selectPaymentUTXOs sort
(signer.ts 349). -/
def byValueDesc (a b : Utxo) : Bool :=
  b.value ≤ a.value

/-- The payment candidate list (signer.ts 347-349): UTXOs of value
strictly above DUMMY_UTXO_VALUE, sorted descending by value. -/
def paymentCandidates (cfg : Config) (utxos : List Utxo) : List Utxo :=
  (utxos.filter (fun x => cfg.dummyUtxoValue < x.value)).mergeSort byValueDesc

/-- The accumulation loop of selectPaymentUTXOs (signer.ts 351-369):
skip tainted UTXOs, push the rest, and stop once the accumulated amount
covers amount plus the fee estimated at the current input count. -/
def selectPaymentLoop (taint : Utxo → Bool) (amount : Int) (vinsLength voutsLength : Nat)
    (rate : Int) : List Utxo → List Utxo → Int → List Utxo × Int
  | [], sel, acc => (sel, acc)
  | u :: rest, sel, acc =>
    if taint u then selectPaymentLoop taint amount vinsLength voutsLength rate rest sel acc
    else if amount + calculateTxBytesFeeWithRate (vinsLength + (sel ++ [u]).length)
        voutsLength rate 1 ≤ acc + u.value then (sel ++ [u], acc + u.value)
    else selectPaymentLoop taint amount vinsLength voutsLength rate rest (sel ++ [u])
      (acc + u.value)

/-- BuyerSigner.selectPaymentUTXOs (signer.ts 333-380). -/
def selectPaymentUTXOs (cfg : Config) (taint : Utxo → Bool) (utxos : List Utxo)
    (amount : Int) (vinsLength voutsLength : Nat) (feeRateTier : String) :
    Except String (List Utxo) :=
  let r := selectPaymentLoop taint amount vinsLength voutsLength
    (cfg.feeRate feeRateTier) (paymentCandidates cfg utxos) [] 0
  if r.2 < amount then Except.error "Not enough cardinal spendable funds."
  else Except.ok r.1

-- =========================================================================
-- Merge (BuyerSigner.mergeSignedBuyingPSBTBase64)
-- =========================================================================

/-- BuyerSigner.mergeSignedBuyingPSBTBase64 (signer.ts 616-637): write
input 0 of the seller PSBT over slot BUYING_PSBT_SELLER_SIGNATURE_INDEX
of the buyer PSBT, both in the unsigned transaction and in the PSBT
input metadata, leaving everything else unchanged.  none models the
undefined propagation the JS code exhibits when the seller PSBT has no
input at all. -/
def mergeSignedBuyingPSBTBase64 (sellerSignedPsbt buyerSignedPsbt : Psbt) : Option Psbt :=
  match sellerSignedPsbt.inputs.head?, sellerSignedPsbt.dataInputs.head? with
  | some si, some sm =>
    some { buyerSignedPsbt with
      inputs := buyerSignedPsbt.inputs.set BUYING_PSBT_SELLER_SIGNATURE_INDEX si
      dataInputs := buyerSignedPsbt.dataInputs.set BUYING_PSBT_SELLER_SIGNATURE_INDEX sm }
  | _, _ => none

-- =========================================================================
-- Listing verification (SellerSigner.verifySignedListingPSBTBase64)
-- =========================================================================

/-- The request of verifySignedListingPSBTBase64
(signer.ts IOrdAPIPostPSBTListing). -/
structure ListingRequest where
  price : Int
  tokenId : String
  sellerReceiveAddress : String
  deriving DecidableEq, Repr

/-- The environment of the listing verifier: the decoded PSBT, the
is_final flag of input 0 of the node PSBT analysis (none when absent),
the inscription indexer, the optional marketplace maker-fee provider,
and the address decoded from the previous output script of an outpoint
(bitcoin.address.fromOutputScript over the getrawtransaction result,
signer.ts 287-293). -/
structure VerifyEnv where
  psbt : Psbt
  analyzeIsFinal : Option Bool
  getTokenByOutput : String → Option IOrdItem
  makerFeeProvider : Option (String → Int)
  prevOutAddress : String → Nat → String

/-- The result of the verifier: normal return, an InvalidArgumentError,
or the JS TypeError raised by reading a property of undefined (reached
when the PSBT has no output at all, signer.ts 271-277). -/
inductive VerifyResult
  | ok
  | invalidArgument (msg : String)
  | typeError
  deriving DecidableEq, Repr

/-- The taproot witness-presence test of signer.ts 232-245: for an
input carrying tapInternalKey the finalized witness must exist, be
nonempty and differ from the 0x0141 empty-Schnorr sentinel. -/
def tapWitnessOk (m : InputMeta) : Bool :=
  match m.tapInternalKey with
  | none => true
  | some _ =>
    match m.finalScriptWitness with
    | some w => ¬w.isEmpty ∧ w ≠ [1, 65]
    | none => false

/-- The maker fee used by the price check (signer.ts 268-270): from the
marketplace fee provider at the item owner, zero when absent. -/
def verifyMakerFeeBp (env : VerifyEnv) (owner : String) : Int :=
  match env.makerFeeProvider with
  | some f => f owner
  | none => 0

/-- The output-side checks of verifySignedListingPSBTBase64
(signer.ts 267-296), taking the first output of the PSBT: price,
receive address, seller authenticity; on a PSBT without outputs the
JS code crashes reading a property of undefined (typeError). -/
def verifyOutputChecks (env : VerifyEnv) (req : ListingRequest) (inp : PsbtInput)
    (item : IOrdItem) : Option PsbtOutput → VerifyResult
  | none => VerifyResult.typeError
  | some out =>
    if out.value ≠ getSellerOrdOutputValue req.price
        (verifyMakerFeeBp env item.owner) item.outputValue then
      VerifyResult.invalidArgument "Invalid price"
    else if out.address ≠ req.sellerReceiveAddress then
      VerifyResult.invalidArgument "Invalid sellerReceiveAddress"
    else if item.owner ≠ env.prevOutAddress inp.hash inp.index then
      VerifyResult.invalidArgument "Invalid seller address"
    else VerifyResult.ok

/-- The token-identity check of verifySignedListingPSBTBase64
(signer.ts 261-265), taking the item the indexer resolved for the
input outpoint: a null item or an id mismatch is rejected
(ordItem?.id !== req.tokenId covers both). -/
def verifyTokenChecks (env : VerifyEnv) (req : ListingRequest) (inp : PsbtInput) :
    Option IOrdItem → VerifyResult
  | none => VerifyResult.invalidArgument "Invalid tokenId"
  | some item =>
    if item.id ≠ req.tokenId then VerifyResult.invalidArgument "Invalid tokenId"
    else verifyOutputChecks env req inp item env.psbt.outputs.head?

/-- The input-dependent part of verifySignedListingPSBTBase64, taking
the first input of the PSBT (present whenever the input-count check
passed). -/
def verifyInputChecks (env : VerifyEnv) (req : ListingRequest) :
    Option PsbtInput → VerifyResult
  | none => VerifyResult.typeError
  | some inp =>
    verifyTokenChecks env req inp
      (env.getTokenByOutput (utxoOutpoint inp.hash inp.index))

/-- SellerSigner.verifySignedListingPSBTBase64 (signer.ts 224-297),
with the checks in source order: taproot witness presence, node
analysis is_final, single input, then the input-, token- and
output-dependent checks (token identity, price, receive address,
seller authenticity). -/
def verifySignedListingPSBTBase64 (env : VerifyEnv) (req : ListingRequest) :
    VerifyResult :=
  if ¬env.psbt.dataInputs.all tapWitnessOk then
    VerifyResult.invalidArgument "Invalid signature - no taproot signature present"
  else if env.analyzeIsFinal ≠ some true then
    VerifyResult.invalidArgument "Invalid signature"
  else if env.psbt.inputs.length ≠ 1 then
    VerifyResult.invalidArgument "Invalid number of inputs"
  else verifyInputChecks env req env.psbt.inputs.head?

/-- Check 1 of the claim: exactly one input. -/
def checkSingleInput (env : VerifyEnv) : Bool :=
  env.psbt.inputs.length = 1

/-- Check 2 of the claim: taproot witness presence on every
tap-internal-key input, and is_final true in the node analysis. -/
def checkSignature (env : VerifyEnv) : Bool :=
  env.psbt.dataInputs.all tapWitnessOk ∧ env.analyzeIsFinal = some true

/-- The item the indexer resolves for input 0 of the PSBT. -/
def resolvedItem (env : VerifyEnv) : Option IOrdItem :=
  match env.psbt.inputs.head? with
  | none => none
  | some inp => env.getTokenByOutput (utxoOutpoint inp.hash inp.index)

/-- Check 3 of the claim: the input outpoint resolves to an item whose
id equals the requested tokenId. -/
def checkTokenId (env : VerifyEnv) (req : ListingRequest) : Bool :=
  match resolvedItem env with
  | some item => item.id = req.tokenId
  | none => false

/-- Check 4 of the claim: the first output's value is the
getSellerOrdOutputValue amount at the marketplace maker fee. -/
def checkPrice (env : VerifyEnv) (req : ListingRequest) : Bool :=
  match resolvedItem env, env.psbt.outputs.head? with
  | some item, some out =>
    out.value = getSellerOrdOutputValue req.price
      (verifyMakerFeeBp env item.owner) item.outputValue
  | _, _ => false

/-- Check 5 of the claim: the first output pays the requested seller
receive address. -/
def checkReceiveAddress (env : VerifyEnv) (req : ListingRequest) : Bool :=
  match env.psbt.outputs.head? with
  | some out => out.address = req.sellerReceiveAddress
  | none => false

/-- Check 6 of the claim: the previous output script of input 0 decodes
to the item owner's address. -/
def checkSellerAddress (env : VerifyEnv) : Bool :=
  match resolvedItem env, env.psbt.inputs.head? with
  | some item, some inp => item.owner = env.prevOutAddress inp.hash inp.index
  | _, _ => false

/-- The conjunction of the six checks of the claim. -/
def allListingChecks (env : VerifyEnv) (req : ListingRequest) : Bool :=
  checkSingleInput env ∧ checkSignature env ∧ checkTokenId env req ∧
  checkPrice env req ∧ checkReceiveAddress env req ∧ checkSellerAddress env

-- =========================================================================
-- Address classification (src/util.ts)
-- =========================================================================

/-- The result of bitcoinjs address.fromBase58Check: version byte and
decoded hash length (only these are inspected by util.ts). -/
structure Base58Decoded where
  version : Int
  hashLen : Nat
  deriving DecidableEq, Repr

/-- The result of bitcoinjs address.fromBech32: human-readable part,
witness version, and witness program length. -/
structure Bech32Decoded where
  hrp : String
  version : Int
  dataLen : Nat
  deriving DecidableEq, Repr

/-- The bitcoinjs-lib address codec, an external library modelled as an
environment: none models a decoding exception. -/
structure AddrCodec where
  fromBase58Check : String → Option Base58Decoded
  fromBech32 : String → Option Bech32Decoded

/-- A bitcoinjs network record, restricted to the fields util.ts reads;
the empty string models an absent bech32 HRP. -/
structure ChainNet where
  pubKeyHash : Int
  scriptHash : Int
  bech32 : String
  deriving DecidableEq, Repr

/-- util.ts isP2PKHAddress: base58-check decodes with the chain's
pubKeyHash version and a 20-byte hash. -/
def isP2PKHAddress (c : AddrCodec) (address : String) (network : ChainNet) : Bool :=
  match c.fromBase58Check address with
  | some d => d.version = network.pubKeyHash ∧ d.hashLen = 20
  | none => false

/-- util.ts isP2SHAddress: base58-check decodes with the chain's
scriptHash version and a 20-byte hash. -/
def isP2SHAddress (c : AddrCodec) (address : String) (network : ChainNet) : Bool :=
  match c.fromBase58Check address with
  | some d => d.version = network.scriptHash ∧ d.hashLen = 20
  | none => false

/-- The address type tags of util.ts getAddressType. -/
inductive AddressType
  | p2pkh
  | p2sh
  | p2wpkh
  | p2wsh
  | p2tr
  | unknown
  deriving DecidableEq, Repr

/-- util.ts getAddressType (lines 162-184): base58 checks first, then,
when the chain has a bech32 HRP, a bech32 decode classified by witness
version and program length.  Note the decoded HRP is never compared
with the chain's. -/
def getAddressType (c : AddrCodec) (address : String) (network : ChainNet) :
    AddressType :=
  if isP2PKHAddress c address network then AddressType.p2pkh
  else if isP2SHAddress c address network then AddressType.p2sh
  else if network.bech32 ≠ "" then
    match c.fromBech32 address with
    | some d =>
      if d.version = 0 then
        if d.dataLen = 20 then AddressType.p2wpkh else AddressType.p2wsh
      else if d.version = 1 then AddressType.p2tr
      else AddressType.unknown
    | none => AddressType.unknown
  else AddressType.unknown

/-- Modelled from the spec (section 4.1 classify_address), for
comparison with getAddressType: identical to the source except that the
bech32 decode is constrained to the chain's HRP, as the spec's words
require. -/
def classifyAddressSpec (c : AddrCodec) (address : String) (network : ChainNet) :
    AddressType :=
  if isP2PKHAddress c address network then AddressType.p2pkh
  else if isP2SHAddress c address network then AddressType.p2sh
  else if network.bech32 ≠ "" then
    match c.fromBech32 address with
    | some d =>
      if d.hrp = network.bech32 then
        if d.version = 0 then
          if d.dataLen = 20 then AddressType.p2wpkh else AddressType.p2wsh
        else if d.version = 1 then AddressType.p2tr
        else AddressType.unknown
      else AddressType.unknown
    | none => AddressType.unknown
  else AddressType.unknown

-- =========================================================================
-- C8: the fee model
-- =========================================================================

/-- C8 counterexample: at one input, one output and fee rate 1 the fee
computed by calculateTxBytesFeeWithRate (with the includeChangeOutput
default of 1 used at every construction site) is 258, not the
(10 + 180 + 34) = 224 the claim states: the implementation always adds
a further 34-byte change-output allowance. -/
theorem fee_model_counterexample :
    calculateTxBytesFeeWithRate 1 1 1 1 ≠ (10 + 180 * 1 + 34 * 1) * 1 := by
  decide

/-- C8 (amended): the estimated fee used throughout construction equals
(10 + 180 n_in + 34 (n_out + 1)) r: the legacy cost model of the claim
plus one extra 34-byte change-output allowance, the includeChangeOutput
default; buyingFee of the buying construction is exactly this value. -/
theorem fee_model_amended :
    (∀ nIn nOut r : Int,
      calculateTxBytesFeeWithRate nIn nOut r 1 = (10 + 180 * nIn + 34 * (nOut + 1)) * r) ∧
    (∀ (cfg : Config) (tier : String) (nIns nOuts : Nat),
      buyingFee cfg tier nIns nOuts
        = (10 + 180 * (nIns : Int) + 34 * ((nOuts : Int) + 1)) * cfg.feeRate tier) := by
  constructor
  · intro nIn nOut r
    unfold calculateTxBytesFeeWithRate
    ring
  · intro cfg tier nIns nOuts
    unfold buyingFee calculateTxBytesFeeWithRate
    ring

-- =========================================================================
-- C4: inscription containment policy
-- =========================================================================

/-- The unconfirmed-branch loop returns true exactly when some vin entry
has an unconfirmed previous transaction, or the indexer returns an item
(or errors) for its previous outpoint. -/
theorem checkVinForInscription_iff (env : ProviderEnv) (l : List VinEntry) :
    checkVinForInscription env l = true ↔
      ∃ i ∈ l, (env.getVerboseTx i.txid).confirmations = 0 ∨
        (∃ it, env.getTokenByOutput (utxoOutpoint i.txid i.vout) = Except.ok (some it)) ∨
        env.getTokenByOutput (utxoOutpoint i.txid i.vout) = Except.error () := by
  induction l with
  | nil => simp [checkVinForInscription]
  | cons i rest ih =>
    rw [checkVinForInscription]
    by_cases hc : (env.getVerboseTx i.txid).confirmations = 0
    · rw [if_pos hc]
      exact iff_of_true rfl ⟨i, List.mem_cons_self i rest, Or.inl hc⟩
    · rw [if_neg hc]
      cases htok : env.getTokenByOutput (utxoOutpoint i.txid i.vout) with
      | ok r =>
        cases r with
        | some it =>
          exact iff_of_true rfl ⟨i, List.mem_cons_self i rest, Or.inr (Or.inl ⟨it, htok⟩)⟩
        | none =>
          rw [ih]
          constructor
          · rintro ⟨j, hj, hcase⟩
            exact ⟨j, List.mem_cons_of_mem i hj, hcase⟩
          · rintro ⟨j, hj, hcase⟩
            rcases List.mem_cons.mp hj with rfl | hj'
            · rcases hcase with h0 | ⟨it, hit⟩ | herr
              · exact absurd h0 hc
              · rw [htok] at hit; cases hit
              · rw [htok] at herr; cases herr
            · exact ⟨j, hj', hcase⟩
      | error e =>
        cases e
        exact iff_of_true rfl ⟨i, List.mem_cons_self i rest, Or.inr (Or.inr htok)⟩

/-- C4: doesUtxoContainInscription returns true for a confirmed UTXO
exactly when the indexer resolves its outpoint to an item or errors
(fail-closed); for an unconfirmed UTXO, exactly when some input of its
transaction has an unconfirmed previous transaction or an
item-resolving (or erroring) previous outpoint; and both UTXO selection
loops skip a UTXO reported as inscription-bearing and continue with the
remaining candidates unchanged. -/
theorem utxo_inscription_policy (env : ProviderEnv) (u : Utxo) :
    (u.confirmed = true →
      (doesUtxoContainInscription env u = true ↔
        (∃ it, env.getTokenByOutput (utxoOutpoint u.txid u.vout) = Except.ok (some it)) ∨
        env.getTokenByOutput (utxoOutpoint u.txid u.vout) = Except.error ())) ∧
    (u.confirmed = false →
      (doesUtxoContainInscription env u = true ↔
        ∃ i ∈ (env.getVerboseTx u.txid).vin,
          (env.getVerboseTx i.txid).confirmations = 0 ∨
          (∃ it, env.getTokenByOutput (utxoOutpoint i.txid i.vout) = Except.ok (some it)) ∨
          env.getTokenByOutput (utxoOutpoint i.txid i.vout) = Except.error ())) ∧
    (∀ amount vins vouts rate rest sel acc,
      doesUtxoContainInscription env u = true →
        selectPaymentLoop (doesUtxoContainInscription env) amount vins vouts rate
            (u :: rest) sel acc
          = selectPaymentLoop (doesUtxoContainInscription env) amount vins vouts rate
            rest sel acc) ∧
    (∀ (cfg : Config) rest acc,
      doesUtxoContainInscription env u = true →
        selectDummyUTXOs cfg (doesUtxoContainInscription env) (u :: rest) acc
          = selectDummyUTXOs cfg (doesUtxoContainInscription env) rest acc) := by
  refine ⟨?_, ?_, ?_, ?_⟩
  · intro hconf
    rw [doesUtxoContainInscription, if_pos hconf, indexerTaints]
    cases htok : env.getTokenByOutput (utxoOutpoint u.txid u.vout) with
    | ok r =>
      cases r with
      | some it => exact iff_of_true rfl (Or.inl ⟨it, rfl⟩)
      | none =>
        refine iff_of_false (by simp) ?_
        rintro (⟨it, hit⟩ | herr)
        · cases hit
        · cases herr
    | error e =>
      cases e
      exact iff_of_true rfl (Or.inr rfl)
  · intro hconf
    rw [doesUtxoContainInscription, if_neg (by simp [hconf])]
    exact checkVinForInscription_iff env _
  · intro amount vins vouts rate rest sel acc htaint
    rw [selectPaymentLoop, if_pos htaint]
  · intro cfg rest acc htaint
    rw [selectDummyUTXOs, if_pos htaint]

-- =========================================================================
-- C7: payment UTXO selection
-- =========================================================================

/-- Summation of UTXO values distributes over list append. -/
theorem sumUtxoValues_append (a b : List Utxo) :
    sumUtxoValues (a ++ b) = sumUtxoValues a + sumUtxoValues b := by
  induction a with
  | nil => simp [sumUtxoValues]
  | cons u rest ih => simp [sumUtxoValues, ih]; ring

/-- Structure of the selectPaymentUTXOs accumulation loop: it extends
the current selection by a sublist of untainted candidates, its
accumulator tracks the selected sum, and every proper intermediate
selection failed the stop test (the loop stops as soon as the sum
covers amount plus the fee at the current input count). -/
theorem selectPaymentLoop_struct (taint : Utxo → Bool) (amount : Int)
    (vins vouts : Nat) (rate : Int) :
    ∀ (l sel : List Utxo) (acc : Int), acc = sumUtxoValues sel →
    ∃ t, (selectPaymentLoop taint amount vins vouts rate l sel acc).1 = sel ++ t ∧
      t.Sublist l ∧
      (∀ u ∈ t, u ∈ l ∧ taint u = false) ∧
      (selectPaymentLoop taint amount vins vouts rate l sel acc).2
        = sumUtxoValues (sel ++ t) ∧
      (∀ k : Nat, sel.length < k → k < (sel ++ t).length →
        sumUtxoValues ((sel ++ t).take k) <
          amount + calculateTxBytesFeeWithRate (↑(vins + k)) (↑vouts) rate 1) := by
  intro l
  induction l with
  | nil =>
    intro sel acc hacc
    refine ⟨[], by simp [selectPaymentLoop], List.nil_sublist [], by simp, ?_, ?_⟩
    · simp [selectPaymentLoop, hacc]
    · intro k h1 h2
      simp only [List.append_nil] at h2
      omega
  | cons u rest ih =>
    intro sel acc hacc
    rw [selectPaymentLoop]
    by_cases ht : taint u
    · rw [if_pos ht]
      obtain ⟨t, h1, h2, h3, h4, h5⟩ := ih sel acc hacc
      exact ⟨t, h1, List.Sublist.cons u h2,
        fun v hv => ⟨List.mem_cons_of_mem u (h3 v hv).1, (h3 v hv).2⟩, h4, h5⟩
    · rw [if_neg ht]
      have htf : taint u = false := by simpa using ht
      by_cases hstop : amount + calculateTxBytesFeeWithRate
          ((vins : Int) + ↑(sel ++ [u]).length) (↑vouts) rate 1 ≤ acc + u.value
      · rw [if_pos hstop]
        refine ⟨[u], rfl, List.Sublist.cons₂ u (List.nil_sublist rest), ?_, ?_, ?_⟩
        · intro v hv
          rcases List.mem_singleton.mp hv with rfl
          exact ⟨List.mem_cons_self v rest, htf⟩
        · rw [hacc, sumUtxoValues_append]
          simp [sumUtxoValues]
        · intro k hk1 hk2
          simp only [List.length_append, List.length_singleton] at hk2
          omega
      · rw [if_neg hstop]
        have hacc' : acc + u.value = sumUtxoValues (sel ++ [u]) := by
          rw [hacc, sumUtxoValues_append]
          simp [sumUtxoValues]
        obtain ⟨t', h1, h2, h3, h4, h5⟩ := ih (sel ++ [u]) (acc + u.value) hacc'
        have hE : (sel ++ [u]) ++ t' = sel ++ u :: t' := by
          rw [List.append_assoc]
          rfl
        refine ⟨u :: t', by rw [h1, hE], List.Sublist.cons₂ u h2, ?_, by rw [h4, hE], ?_⟩
        · intro v hv
          rcases List.mem_cons.mp hv with rfl | hv'
          · exact ⟨List.mem_cons_self v rest, htf⟩
          · exact ⟨List.mem_cons_of_mem u (h3 v hv').1, (h3 v hv').2⟩
        · intro k hk1 hk2
          rw [← hE] at hk2 ⊢
          rcases Nat.lt_or_ge (sel ++ [u]).length k with hgt | hle
          · exact h5 k hgt hk2
          · have hkeq : k = (sel ++ [u]).length := by
              simp only [List.length_append, List.length_singleton] at hle hk1 ⊢
              omega
            subst hkeq
            rw [List.take_left]
            rw [← hacc']
            have hcast : ((vins + (sel ++ [u]).length : Nat) : Int)
                = (vins : Int) + ↑(sel ++ [u]).length := by
              push_cast
              ring
            rw [hcast]
            exact lt_of_not_le hstop

/-- C7: selectPaymentUTXOs draws only from the candidates of value
strictly above DUMMY_UTXO_VALUE sorted descending by value, skips every
inscription-bearing UTXO, stops accumulating as soon as the selected
sum covers amount plus the fee estimated at vinsLength plus the number
taken, and errors with insufficient funds exactly when the final
selected sum is below amount, returning the selected list otherwise. -/
theorem select_payment_utxos_spec (cfg : Config) (taint : Utxo → Bool)
    (utxos : List Utxo) (amount : Int) (vins vouts : Nat) (tier : String)
    (sel : List Utxo) (acc : Int)
    (h : selectPaymentLoop taint amount vins vouts (cfg.feeRate tier)
      (paymentCandidates cfg utxos) [] 0 = (sel, acc)) :
    (selectPaymentUTXOs cfg taint utxos amount vins vouts tier = Except.ok sel ↔
      amount ≤ sumUtxoValues sel) ∧
    ((∃ e, selectPaymentUTXOs cfg taint utxos amount vins vouts tier = Except.error e) ↔
      sumUtxoValues sel < amount) ∧
    (∀ u ∈ sel, cfg.dummyUtxoValue < u.value ∧ taint u = false) ∧
    sel.Sublist (paymentCandidates cfg utxos) ∧
    (∀ k : Nat, 0 < k → k < sel.length →
      sumUtxoValues (sel.take k) <
        amount + calculateTxBytesFeeWithRate (↑(vins + k)) (↑vouts) (cfg.feeRate tier) 1) := by
  obtain ⟨t, h1, h2, h3, h4, h5⟩ := selectPaymentLoop_struct taint amount vins vouts
    (cfg.feeRate tier) (paymentCandidates cfg utxos) [] 0 rfl
  rw [h] at h1 h4
  simp only [List.nil_append, List.length_nil] at h1 h4 h5
  subst h1
  have hsum : acc = sumUtxoValues sel := h4
  refine ⟨?_, ?_, ?_, h2, ?_⟩
  · by_cases hlt : acc < amount
    · refine iff_of_false ?_ ?_
      · simp [selectPaymentUTXOs, h, if_pos hlt]
      · rw [← hsum]
        omega
    · refine iff_of_true ?_ ?_
      · simp [selectPaymentUTXOs, h, if_neg hlt]
      · rw [← hsum]
        omega
  · by_cases hlt : acc < amount
    · refine iff_of_true ?_ ?_
      · exact ⟨"Not enough cardinal spendable funds.",
          by simp [selectPaymentUTXOs, h, if_pos hlt]⟩
      · rw [← hsum]
        exact hlt
    · refine iff_of_false ?_ ?_
      · rintro ⟨e, he⟩
        simp [selectPaymentUTXOs, h, if_neg hlt] at he
      · rw [← hsum]
        omega
  · intro u hu
    have hmem := (h3 u hu).1
    have hval : u ∈ utxos.filter (fun x => cfg.dummyUtxoValue < x.value) := by
      rw [paymentCandidates] at hmem
      exact List.mem_mergeSort.mp hmem
    refine ⟨?_, (h3 u hu).2⟩
    have := (List.mem_filter.mp hval).2
    exact of_decide_eq_true this
  · intro k hk1 hk2
    exact h5 k hk1 hk2


-- =========================================================================
-- C3: listing verification accepts/rejects exactly by the six checks
-- =========================================================================

/-- C3: verifySignedListingPSBTBase64 raises InvalidArgumentError
exactly when one of the six checks fails, and returns normally exactly
when all six hold.  The hypothesis that the PSBT has at least one
output keeps the run inside the InvalidArgumentError regime (on a
zero-output PSBT the JS code would instead crash reading a property of
undefined, modelled as typeError). -/
theorem verify_signed_listing_iff (env : VerifyEnv) (req : ListingRequest)
    (hout : env.psbt.outputs ≠ []) :
    (verifySignedListingPSBTBase64 env req = VerifyResult.ok ↔
      allListingChecks env req = true) ∧
    ((∃ m, verifySignedListingPSBTBase64 env req = VerifyResult.invalidArgument m) ↔
      allListingChecks env req = false) := by
  have hchecks : allListingChecks env req = true ↔
      (checkSingleInput env = true ∧ checkSignature env = true ∧
       checkTokenId env req = true ∧ checkPrice env req = true ∧
       checkReceiveAddress env req = true ∧ checkSellerAddress env = true) := by
    simp [allListingChecks]
  unfold verifySignedListingPSBTBase64
  by_cases h1 : env.psbt.dataInputs.all tapWitnessOk = true
  case neg =>
    rw [if_pos (by simpa using h1)]
    have hcf : allListingChecks env req ≠ true := by
      intro hc
      obtain ⟨-, c2, -⟩ := hchecks.mp hc
      simp only [checkSignature, decide_eq_true_eq] at c2
      exact h1 c2.1
    exact ⟨iff_of_false (by simp) hcf,
      iff_of_true ⟨_, rfl⟩ (Bool.eq_false_iff.mpr hcf)⟩
  case pos =>
    rw [if_neg (by simpa using h1)]
    by_cases h2 : env.analyzeIsFinal ≠ some true
    case pos =>
      rw [if_pos h2]
      have hcf : allListingChecks env req ≠ true := by
        intro hc
        obtain ⟨-, c2, -⟩ := hchecks.mp hc
        simp only [checkSignature, decide_eq_true_eq] at c2
        exact h2 c2.2
      exact ⟨iff_of_false (by simp) hcf,
        iff_of_true ⟨_, rfl⟩ (Bool.eq_false_iff.mpr hcf)⟩
    case neg =>
      rw [if_neg h2]
      have h2' : env.analyzeIsFinal = some true := not_ne_iff.mp h2
      by_cases h3 : env.psbt.inputs.length ≠ 1
      case pos =>
        rw [if_pos h3]
        have hcf : allListingChecks env req ≠ true := by
          intro hc
          obtain ⟨c1, -⟩ := hchecks.mp hc
          simp only [checkSingleInput, decide_eq_true_eq] at c1
          exact h3 c1
        exact ⟨iff_of_false (by simp) hcf,
          iff_of_true ⟨_, rfl⟩ (Bool.eq_false_iff.mpr hcf)⟩
      case neg =>
        rw [if_neg h3]
        have hlen : env.psbt.inputs.length = 1 := not_ne_iff.mp h3
        obtain ⟨inp, hinp⟩ : ∃ inp, env.psbt.inputs.head? = some inp := by
          cases hi : env.psbt.inputs with
          | nil => rw [hi] at hlen; simp at hlen
          | cons a l => exact ⟨a, rfl⟩
        rw [hinp, verifyInputChecks]
        cases htok : env.getTokenByOutput (utxoOutpoint inp.hash inp.index) with
        | none =>
          rw [verifyTokenChecks]
          have hcf : allListingChecks env req ≠ true := by
            intro hc
            obtain ⟨-, -, c3, -⟩ := hchecks.mp hc
            simp only [checkTokenId, resolvedItem, hinp, htok, decide_eq_true_eq] at c3
            exact Bool.false_ne_true c3
          exact ⟨iff_of_false (by simp) hcf,
            iff_of_true ⟨_, rfl⟩ (Bool.eq_false_iff.mpr hcf)⟩
        | some item =>
          rw [verifyTokenChecks]
          by_cases hid : item.id ≠ req.tokenId
          case pos =>
            rw [if_pos hid]
            have hcf : allListingChecks env req ≠ true := by
              intro hc
              obtain ⟨-, -, c3, -⟩ := hchecks.mp hc
              simp only [checkTokenId, resolvedItem, hinp, htok, decide_eq_true_eq] at c3
              exact hid c3
            exact ⟨iff_of_false (by simp) hcf,
              iff_of_true ⟨_, rfl⟩ (Bool.eq_false_iff.mpr hcf)⟩
          case neg =>
            rw [if_neg hid]
            have hid' : item.id = req.tokenId := not_ne_iff.mp hid
            obtain ⟨out, houts⟩ : ∃ out, env.psbt.outputs.head? = some out := by
              cases ho : env.psbt.outputs with
              | nil => exact absurd ho hout
              | cons o l => exact ⟨o, rfl⟩
            rw [houts, verifyOutputChecks]
            by_cases hp : out.value ≠ getSellerOrdOutputValue req.price
                (verifyMakerFeeBp env item.owner) item.outputValue
            case pos =>
              rw [if_pos hp]
              have hcf : allListingChecks env req ≠ true := by
                intro hc
                obtain ⟨-, -, -, c4, -⟩ := hchecks.mp hc
                simp only [checkPrice, resolvedItem, hinp, htok, houts,
                  decide_eq_true_eq] at c4
                exact hp c4
              exact ⟨iff_of_false (by simp) hcf,
                iff_of_true ⟨_, rfl⟩ (Bool.eq_false_iff.mpr hcf)⟩
            case neg =>
              rw [if_neg hp]
              by_cases ha : out.address ≠ req.sellerReceiveAddress
              case pos =>
                rw [if_pos ha]
                have hcf : allListingChecks env req ≠ true := by
                  intro hc
                  obtain ⟨-, -, -, -, c5, -⟩ := hchecks.mp hc
                  simp only [checkReceiveAddress, houts, decide_eq_true_eq] at c5
                  exact ha c5
                exact ⟨iff_of_false (by simp) hcf,
                  iff_of_true ⟨_, rfl⟩ (Bool.eq_false_iff.mpr hcf)⟩
              case neg =>
                rw [if_neg ha]
                by_cases hw : item.owner ≠ env.prevOutAddress inp.hash inp.index
                case pos =>
                  rw [if_pos hw]
                  have hcf : allListingChecks env req ≠ true := by
                    intro hc
                    obtain ⟨-, -, -, -, -, c6⟩ := hchecks.mp hc
                    simp only [checkSellerAddress, resolvedItem, hinp, htok,
                      decide_eq_true_eq] at c6
                    exact hw c6
                  exact ⟨iff_of_false (by simp) hcf,
                    iff_of_true ⟨_, rfl⟩ (Bool.eq_false_iff.mpr hcf)⟩
                case neg =>
                  rw [if_neg hw]
                  have hct : allListingChecks env req = true := by
                    refine hchecks.mpr ⟨?_, ?_, ?_, ?_, ?_, ?_⟩
                    · simp [checkSingleInput, hlen]
                    · simp [checkSignature, h1, h2']
                    · simp [checkTokenId, resolvedItem, hinp, htok, hid']
                    · simp [checkPrice, resolvedItem, hinp, htok, houts,
                        not_ne_iff.mp hp]
                    · simp [checkReceiveAddress, houts, not_ne_iff.mp ha]
                    · simp [checkSellerAddress, resolvedItem, hinp, htok,
                        not_ne_iff.mp hw]
                  refine ⟨iff_of_true rfl hct, iff_of_false ?_ (by simp [hct])⟩
                  rintro ⟨m, hm⟩
                  cases hm

-- =========================================================================
-- C5: merge splices slot 2 and nothing else
-- =========================================================================

/-- C5: mergeSignedBuyingPSBTBase64 writes seller input 0 (transaction
input and PSBT metadata) into slot 2 of the buyer PSBT and leaves every
other input slot, all outputs and the remaining transaction fields
unchanged; as a pure function it is deterministic. -/
theorem merge_frame (s b : Psbt) (si : PsbtInput) (sm : InputMeta)
    (hs : s.inputs.head? = some si) (hm : s.dataInputs.head? = some sm)
    (hb : 2 < b.inputs.length) (hbm : 2 < b.dataInputs.length) :
    ∃ r, mergeSignedBuyingPSBTBase64 s b = some r ∧
      r.inputs[2]? = some si ∧
      r.dataInputs[2]? = some sm ∧
      (∀ i : Nat, i ≠ 2 → r.inputs[i]? = b.inputs[i]?) ∧
      (∀ i : Nat, i ≠ 2 → r.dataInputs[i]? = b.dataInputs[i]?) ∧
      r.outputs = b.outputs ∧ r.version = b.version ∧ r.locktime = b.locktime ∧
      mergeSignedBuyingPSBTBase64 s b = mergeSignedBuyingPSBTBase64 s b := by
  refine ⟨{ b with
      inputs := b.inputs.set BUYING_PSBT_SELLER_SIGNATURE_INDEX si
      dataInputs := b.dataInputs.set BUYING_PSBT_SELLER_SIGNATURE_INDEX sm },
    ?_, ?_, ?_, ?_, ?_, rfl, rfl, rfl, rfl⟩
  · rw [mergeSignedBuyingPSBTBase64, hs, hm]
  · simp only [BUYING_PSBT_SELLER_SIGNATURE_INDEX]
    exact List.getElem?_set_self hb
  · simp only [BUYING_PSBT_SELLER_SIGNATURE_INDEX]
    exact List.getElem?_set_self hbm
  · intro i hi
    simp only [BUYING_PSBT_SELLER_SIGNATURE_INDEX]
    exact List.getElem?_set_ne (fun h => hi h.symm)
  · intro i hi
    simp only [BUYING_PSBT_SELLER_SIGNATURE_INDEX]
    exact List.getElem?_set_ne (fun h => hi h.symm)

-- =========================================================================
-- C9: address classification
-- =========================================================================

/-- A codec under which the string xx1qtest bech32-decodes with HRP xx,
witness version 0 and a 20-byte program, and nothing base58-decodes
(the shape a foreign-chain segwit address exhibits). -/
def codecX : AddrCodec :=
  { fromBase58Check := fun _ => none
    fromBech32 := fun a =>
      if a = "xx1qtest" then some ⟨"xx", 0, 20⟩ else none }

/-- A chain profile with bitcoin mainnet base58 versions and HRP bc. -/
def mainnetLike : ChainNet :=
  { pubKeyHash := 0, scriptHash := 5, bech32 := "bc" }

/-- C9 counterexample: getAddressType classifies a bech32 address with
HRP xx as p2wpkh under a chain whose HRP is bc: the source never
compares the decoded HRP with the chain's, so it differs from the
spec's HRP-constrained classification, which returns unknown here. -/
theorem address_type_counterexample :
    getAddressType codecX "xx1qtest" mainnetLike = AddressType.p2wpkh ∧
    classifyAddressSpec codecX "xx1qtest" mainnetLike = AddressType.unknown ∧
    getAddressType codecX "xx1qtest" mainnetLike ≠
      classifyAddressSpec codecX "xx1qtest" mainnetLike := by
  refine ⟨by decide, by decide, by decide⟩

/-- C9 (amended): getAddressType returns p2pkh exactly on the
pubKeyHash base58 shape, p2sh exactly on the scriptHash base58 shape
(when not p2pkh), classifies any successfully bech32-decoding string by
witness version and program length whenever the chain's HRP is
nonempty (without constraining the decode to that HRP), and returns
unknown when the HRP is empty or the bech32 decode fails. -/
theorem address_type_amended (c : AddrCodec) (a : String) (n : ChainNet) :
    (getAddressType c a n = AddressType.p2pkh ↔ isP2PKHAddress c a n = true) ∧
    (getAddressType c a n = AddressType.p2sh ↔
      (isP2PKHAddress c a n = false ∧ isP2SHAddress c a n = true)) ∧
    (∀ d, isP2PKHAddress c a n = false → isP2SHAddress c a n = false →
      n.bech32 ≠ "" → c.fromBech32 a = some d →
      getAddressType c a n =
        (if d.version = 0 then
          (if d.dataLen = 20 then AddressType.p2wpkh else AddressType.p2wsh)
         else if d.version = 1 then AddressType.p2tr else AddressType.unknown)) ∧
    (isP2PKHAddress c a n = false → isP2SHAddress c a n = false →
      (n.bech32 = "" ∨ c.fromBech32 a = none) →
      getAddressType c a n = AddressType.unknown) := by
  by_cases hp : isP2PKHAddress c a n = true
  · have hg : getAddressType c a n = AddressType.p2pkh := by
      simp [getAddressType, hp]
    refine ⟨iff_of_true hg hp, ?_, ?_, ?_⟩
    · refine iff_of_false (by rw [hg]; simp) ?_
      rintro ⟨hpf, -⟩
      rw [hp] at hpf
      cases hpf
    · intro d hpf _ _ _
      rw [hp] at hpf
      cases hpf
    · intro hpf _ _
      rw [hp] at hpf
      cases hpf
  · have hpf : isP2PKHAddress c a n = false := by simpa using hp
    by_cases hs2 : isP2SHAddress c a n = true
    · have hg : getAddressType c a n = AddressType.p2sh := by
        simp [getAddressType, hpf, hs2]
      refine ⟨iff_of_false (by rw [hg]; simp) ?_, iff_of_true hg ⟨hpf, hs2⟩, ?_, ?_⟩
      · intro h
        rw [h] at hpf
        cases hpf
      · intro d _ hs2f _ _
        rw [hs2] at hs2f
        cases hs2f
      · intro _ hs2f _
        rw [hs2] at hs2f
        cases hs2f
    · have hs2f : isP2SHAddress c a n = false := by simpa using hs2
      by_cases hbe : n.bech32 = ""
      · have hg : getAddressType c a n = AddressType.unknown := by
          simp [getAddressType, hpf, hs2f, hbe]
        refine ⟨iff_of_false (by rw [hg]; simp) ?_,
          iff_of_false (by rw [hg]; simp) ?_, ?_, fun _ _ _ => hg⟩
        · intro h
          rw [h] at hpf
          cases hpf
        · rintro ⟨-, h2⟩
          rw [h2] at hs2f
          cases hs2f
        · intro d _ _ hne _
          exact absurd hbe hne
      · cases hfb : c.fromBech32 a with
        | none =>
          have hg : getAddressType c a n = AddressType.unknown := by
            simp [getAddressType, hpf, hs2f, hbe, hfb]
          refine ⟨iff_of_false (by rw [hg]; simp) ?_,
            iff_of_false (by rw [hg]; simp) ?_, ?_, fun _ _ _ => hg⟩
          · intro h
            rw [h] at hpf
            cases hpf
          · rintro ⟨-, h2⟩
            rw [h2] at hs2f
            cases hs2f
          · intro d _ _ _ hsome
            cases hsome
        | some d0 =>
          have hg : getAddressType c a n =
              (if d0.version = 0 then
                (if d0.dataLen = 20 then AddressType.p2wpkh else AddressType.p2wsh)
               else if d0.version = 1 then AddressType.p2tr
               else AddressType.unknown) := by
            simp [getAddressType, hpf, hs2f, hbe, hfb]
          refine ⟨iff_of_false (by rw [hg]; split_ifs <;> simp) ?_,
            iff_of_false (by rw [hg]; split_ifs <;> simp) ?_, ?_, ?_⟩
          · intro h
            rw [h] at hpf
            cases hpf
          · rintro ⟨-, h2⟩
            rw [h2] at hs2f
            cases hs2f
          · intro d _ _ _ hsome
            injection hsome with hd
            subst hd
            exact hg
          · rintro _ _ (h | h)
            · exact absurd h hbe
            · cases h

-- =========================================================================
-- Buying PSBT structure (shared by the output-layout claims)
-- =========================================================================

/-- A successful buildBuyingPsbt run exposes its structure: the buyer
section was present with exactly two dummies and a payment list, the
location offset parsed, the change was nonnegative, and the output list
is buyingOutputsBase followed by the optional change output. -/
theorem buildBuyingPsbt_ok_struct (cfg : Config) (arg : String) (l : Listing)
    (p : Psbt) (hok : buildBuyingPsbt cfg arg l = Except.ok p) :
    ∃ b d1 d2 pays off,
      l.buyer = some b ∧
      b.buyerDummyUTXOs = some [d1, d2] ∧
      b.buyerPaymentUTXOs = some pays ∧
      locationOffset l.seller.ordItem.location = some off ∧
      0 ≤ buyingChangeValue cfg (resolvedPlatformFeeAddress cfg arg) b l.seller
        d1 d2 pays off ∧
      p.outputs = buyingOutputsBase cfg (resolvedPlatformFeeAddress cfg arg) b
          l.seller d1 d2 off
        ++ (if buyingChangeValue cfg (resolvedPlatformFeeAddress cfg arg) b l.seller
              d1 d2 pays off > cfg.dummyUtxoMinValue then
              [⟨b.buyerAddress, buyingChangeValue cfg (resolvedPlatformFeeAddress cfg arg)
                b l.seller d1 d2 pays off⟩]
            else []) := by
  simp only [buildBuyingPsbt] at hok
  split at hok
  next => exact absurd hok (by simp)
  next b heqb =>
    split at hok
    next => exact absurd hok (by simp)
    next haddr =>
      split at hok
      next => exact absurd hok (by simp)
      next htr =>
        split at hok
        next d1 d2 pays heqd heqp =>
          split at hok
          next => exact absurd hok (by simp)
          next off heqoff =>
            split at hok
            next => exact absurd hok (by simp)
            next ordTxid ordVout heqout =>
              split at hok
              next => exact absurd hok (by simp)
              next hchange =>
                simp only [Except.ok.injEq] at hok
                subst hok
                exact ⟨b, d1, d2, pays, off, heqb, heqd, heqp, heqoff,
                  not_lt.mp hchange, rfl⟩
        next h1 h2 => exact absurd hok (by simp)

-- =========================================================================
-- C1: outputs 0 and 1 of the buying PSBT
-- =========================================================================

/-- C1: in every successfully generated buying PSBT (buyer section with
exactly two dummies and a payment list), output 0 pays the buyer
payment address dummy1.value + dummy2.value + offset, where offset is
the parsed third colon-separated component of ordItem.location, and
output 1 pays the buyer token receive address exactly
ORDINALS_POSTAGE_VALUE. -/
theorem buying_psbt_dummy_and_postage_outputs (cfg : Config) (arg : String)
    (l : Listing) (b : BuyerState) (d1 d2 : MappedUtxo) (pays : List Utxo)
    (off : Int) (p : Psbt)
    (hb : l.buyer = some b)
    (hd : b.buyerDummyUTXOs = some [d1, d2])
    (hp2 : b.buyerPaymentUTXOs = some pays)
    (hoff : locationOffset l.seller.ordItem.location = some off)
    (hok : buildBuyingPsbt cfg arg l = Except.ok p) :
    p.outputs[0]? = some ⟨b.buyerAddress, d1.value + d2.value + off⟩ ∧
    p.outputs[1]? = some ⟨b.buyerTokenReceiveAddress, cfg.ordinalsPostageValue⟩ := by
  obtain ⟨b', d1', d2', pays', off', hb', hd', hp', hoff', -, houts⟩ :=
    buildBuyingPsbt_ok_struct cfg arg l p hok
  rw [hb] at hb'
  injection hb' with hb'
  subst hb'
  rw [hd] at hd'
  injection hd' with hd'
  simp only [List.cons.injEq] at hd'
  obtain ⟨h1, h2, -⟩ := hd'
  subst h1
  subst h2
  rw [hoff] at hoff'
  injection hoff' with hoff'
  subst hoff'
  rw [houts]
  simp [buyingOutputsBase, List.cons_append]

-- =========================================================================
-- C2: seller payout appears identically in both halves
-- =========================================================================

/-- C2: the seller-half PSBT has the single output paying the seller
receive address the getSellerOrdOutputValue amount, and the buying PSBT
for the same listing places an output with the same address and the
exact same value at index 2. -/
theorem seller_payout_consistency (cfg : Config) (arg : String) (l : Listing)
    (sp bp : Psbt)
    (hs : generateUnsignedListingPSBT l = Except.ok sp)
    (hok : buildBuyingPsbt cfg arg l = Except.ok bp) :
    sp.outputs = [⟨l.seller.sellerReceiveAddress,
      getSellerOrdOutputValue l.seller.price l.seller.makerFeeBp
        l.seller.ordItem.outputValue⟩] ∧
    bp.outputs[2]? = some ⟨l.seller.sellerReceiveAddress,
      getSellerOrdOutputValue l.seller.price l.seller.makerFeeBp
        l.seller.ordItem.outputValue⟩ := by
  constructor
  · simp only [generateUnsignedListingPSBT] at hs
    split at hs
    next => exact absurd hs (by simp)
    next t v heq =>
      simp only [Except.ok.injEq] at hs
      subst hs
      rfl
  · obtain ⟨b, d1, d2, pays, off, -, -, -, -, -, houts⟩ :=
      buildBuyingPsbt_ok_struct cfg arg l bp hok
    rw [houts]
    simp [buyingOutputsBase, List.cons_append]

-- =========================================================================
-- C6: the platform fee output at index 3
-- =========================================================================

/-- C6: the buying PSBT carries a platform-fee output at index 3 paying
the resolved platform fee address floor(price (makerFeeBp + takerFeeBp)
/ 10000) whenever that value exceeds the dust threshold
DUMMY_UTXO_MIN_VALUE and a fee address is configured; otherwise the
output is omitted and index 3 holds the first fresh 600-sat dummy
output instead. -/
theorem platform_fee_output (cfg : Config) (arg : String) (l : Listing)
    (b : BuyerState) (d1 d2 : MappedUtxo) (pays : List Utxo) (off : Int) (p : Psbt)
    (hb : l.buyer = some b)
    (hd : b.buyerDummyUTXOs = some [d1, d2])
    (hp2 : b.buyerPaymentUTXOs = some pays)
    (hoff : locationOffset l.seller.ordItem.location = some off)
    (hok : buildBuyingPsbt cfg arg l = Except.ok p)
    (hmin : 0 ≤ cfg.dummyUtxoMinValue) :
    (Int.fdiv (l.seller.price * (b.takerFeeBp + l.seller.makerFeeBp)) 10000 >
        cfg.dummyUtxoMinValue ∧ resolvedPlatformFeeAddress cfg arg ≠ "" →
      p.outputs[3]? = some ⟨resolvedPlatformFeeAddress cfg arg,
        Int.fdiv (l.seller.price * (b.takerFeeBp + l.seller.makerFeeBp)) 10000⟩) ∧
    (Int.fdiv (l.seller.price * (b.takerFeeBp + l.seller.makerFeeBp)) 10000 ≤
        cfg.dummyUtxoMinValue ∨ resolvedPlatformFeeAddress cfg arg = "" →
      p.outputs[3]? = some ⟨b.buyerAddress, cfg.dummyUtxoValue⟩) := by
  obtain ⟨b', d1', d2', pays', off', hb', hd', hp', hoff', -, houts⟩ :=
    buildBuyingPsbt_ok_struct cfg arg l p hok
  rw [hb] at hb'
  injection hb' with hb'
  subst hb'
  constructor
  · rintro ⟨hv, hfa⟩
    have hpfv : buyingPlatformFeeValue cfg b l.seller
        = Int.fdiv (l.seller.price * (b.takerFeeBp + l.seller.makerFeeBp)) 10000 := by
      rw [buyingPlatformFeeValue, if_pos hv]
    have hcond : buyingPlatformFeeValue cfg b l.seller > 0 ∧
        resolvedPlatformFeeAddress cfg arg ≠ "" := by
      refine ⟨?_, hfa⟩
      rw [hpfv]
      omega
    rw [houts]
    rw [buyingOutputsBase, if_pos hcond, hpfv]
    simp [List.cons_append]
  · intro hcase
    have hcond : ¬(buyingPlatformFeeValue cfg b l.seller > 0 ∧
        resolvedPlatformFeeAddress cfg arg ≠ "") := by
      rcases hcase with hv | hfa
      · rintro ⟨hgt, -⟩
        rw [buyingPlatformFeeValue] at hgt
        split at hgt
        · omega
        · omega
      · rintro ⟨-, hne⟩
        exact hne hfa
    rw [houts]
    rw [buyingOutputsBase, if_neg hcond]
    simp [List.cons_append]

-- =========================================================================
-- C10: error paths of the buying construction are atomic
-- =========================================================================

/-- A failed PSBT construction propagates as the same error through the
listing-updating wrapper, which therefore assigns nothing. -/
theorem generateUnsignedBuyingPSBTBase64_error (cfg : Config) (arg : String)
    (l : Listing) (e : String) (h : buildBuyingPsbt cfg arg l = Except.error e) :
    generateUnsignedBuyingPSBTBase64 cfg arg l = Except.error e := by
  simp only [generateUnsignedBuyingPSBTBase64, h]

/-- C10: generateUnsignedBuyingPSBTBase64 throws InvalidArgumentError
whenever the buyer section or one of its addresses is missing, the
dummy list is absent or not of length two, the payment list is absent,
or the inputs cannot cover the outputs plus fee; the listing document's
buyer PSBT fields are assigned only on the success path. -/
theorem buying_psbt_error_paths (cfg : Config) (arg : String) (l : Listing) :
    (l.buyer = none →
      ∃ e, generateUnsignedBuyingPSBTBase64 cfg arg l = Except.error e) ∧
    (∀ b, l.buyer = some b →
      (b.buyerAddress = "" ∨ b.buyerTokenReceiveAddress = "") →
      ∃ e, generateUnsignedBuyingPSBTBase64 cfg arg l = Except.error e) ∧
    (∀ b, l.buyer = some b → b.buyerDummyUTXOs = none →
      ∃ e, generateUnsignedBuyingPSBTBase64 cfg arg l = Except.error e) ∧
    (∀ b ds, l.buyer = some b → b.buyerDummyUTXOs = some ds → ds.length ≠ 2 →
      ∃ e, generateUnsignedBuyingPSBTBase64 cfg arg l = Except.error e) ∧
    (∀ b, l.buyer = some b → b.buyerPaymentUTXOs = none →
      ∃ e, generateUnsignedBuyingPSBTBase64 cfg arg l = Except.error e) ∧
    (∀ b d1 d2 pays off, l.buyer = some b → b.buyerDummyUTXOs = some [d1, d2] →
      b.buyerPaymentUTXOs = some pays →
      locationOffset l.seller.ordItem.location = some off →
      buyingChangeValue cfg (resolvedPlatformFeeAddress cfg arg) b l.seller
        d1 d2 pays off < 0 →
      ∃ e, generateUnsignedBuyingPSBTBase64 cfg arg l = Except.error e) ∧
    (∀ l', generateUnsignedBuyingPSBTBase64 cfg arg l = Except.ok l' →
      ∃ p b, buildBuyingPsbt cfg arg l = Except.ok p ∧ l.buyer = some b ∧
        l' = { l with buyer := some { b with
          unsignedBuyingPSBT := some p
          unsignedBuyingPSBTInputSize := some p.dataInputs.length } }) := by
  refine ⟨?_, ?_, ?_, ?_, ?_, ?_, ?_⟩
  · intro h
    exact ⟨_, generateUnsignedBuyingPSBTBase64_error cfg arg l _
      (by simp [buildBuyingPsbt, h]; rfl)⟩
  · intro b hb hor
    by_cases haddr : b.buyerAddress = ""
    · exact ⟨_, generateUnsignedBuyingPSBTBase64_error cfg arg l _
        (by simp [buildBuyingPsbt, hb, haddr]; rfl)⟩
    · have htr : b.buyerTokenReceiveAddress = "" := by
        rcases hor with h | h
        · exact absurd h haddr
        · exact h
      exact ⟨_, generateUnsignedBuyingPSBTBase64_error cfg arg l _
        (by simp [buildBuyingPsbt, hb, haddr, htr]; rfl)⟩
  · intro b hb hdn
    by_cases haddr : b.buyerAddress = ""
    · exact ⟨_, generateUnsignedBuyingPSBTBase64_error cfg arg l _
        (by simp [buildBuyingPsbt, hb, haddr]; rfl)⟩
    · by_cases htr : b.buyerTokenReceiveAddress = ""
      · exact ⟨_, generateUnsignedBuyingPSBTBase64_error cfg arg l _
          (by simp [buildBuyingPsbt, hb, haddr, htr]; rfl)⟩
      · exact ⟨_, generateUnsignedBuyingPSBTBase64_error cfg arg l _
          (by simp [buildBuyingPsbt, hb, haddr, htr, hdn]; rfl)⟩
  · intro b ds hb hds hlen
    by_cases haddr : b.buyerAddress = ""
    · exact ⟨_, generateUnsignedBuyingPSBTBase64_error cfg arg l _
        (by simp [buildBuyingPsbt, hb, haddr]; rfl)⟩
    · by_cases htr : b.buyerTokenReceiveAddress = ""
      · exact ⟨_, generateUnsignedBuyingPSBTBase64_error cfg arg l _
          (by simp [buildBuyingPsbt, hb, haddr, htr]; rfl)⟩
      · rcases ds with _ | ⟨x, _ | ⟨y, _ | ⟨z, t⟩⟩⟩
        · exact ⟨_, generateUnsignedBuyingPSBTBase64_error cfg arg l _
            (by simp [buildBuyingPsbt, hb, haddr, htr, hds]; rfl)⟩
        · exact ⟨_, generateUnsignedBuyingPSBTBase64_error cfg arg l _
            (by simp [buildBuyingPsbt, hb, haddr, htr, hds]; rfl)⟩
        · simp at hlen
        · exact ⟨_, generateUnsignedBuyingPSBTBase64_error cfg arg l _
            (by simp [buildBuyingPsbt, hb, haddr, htr, hds]; rfl)⟩
  · intro b hb hpn
    by_cases haddr : b.buyerAddress = ""
    · exact ⟨_, generateUnsignedBuyingPSBTBase64_error cfg arg l _
        (by simp [buildBuyingPsbt, hb, haddr]; rfl)⟩
    · by_cases htr : b.buyerTokenReceiveAddress = ""
      · exact ⟨_, generateUnsignedBuyingPSBTBase64_error cfg arg l _
          (by simp [buildBuyingPsbt, hb, haddr, htr]; rfl)⟩
      · rcases hds : b.buyerDummyUTXOs with _ | ds
        · exact ⟨_, generateUnsignedBuyingPSBTBase64_error cfg arg l _
            (by simp [buildBuyingPsbt, hb, haddr, htr, hds]; rfl)⟩
        · rcases ds with _ | ⟨x, _ | ⟨y, _ | ⟨z, t⟩⟩⟩
          · exact ⟨_, generateUnsignedBuyingPSBTBase64_error cfg arg l _
              (by simp [buildBuyingPsbt, hb, haddr, htr, hds]; rfl)⟩
          · exact ⟨_, generateUnsignedBuyingPSBTBase64_error cfg arg l _
              (by simp [buildBuyingPsbt, hb, haddr, htr, hds]; rfl)⟩
          · exact ⟨_, generateUnsignedBuyingPSBTBase64_error cfg arg l _
              (by simp [buildBuyingPsbt, hb, haddr, htr, hds, hpn]; rfl)⟩
          · exact ⟨_, generateUnsignedBuyingPSBTBase64_error cfg arg l _
              (by simp [buildBuyingPsbt, hb, haddr, htr, hds]; rfl)⟩
  · intro b d1 d2 pays off hb hd hp2 hoff hchange
    by_cases haddr : b.buyerAddress = ""
    · exact ⟨_, generateUnsignedBuyingPSBTBase64_error cfg arg l _
        (by simp [buildBuyingPsbt, hb, haddr]; rfl)⟩
    · by_cases htr : b.buyerTokenReceiveAddress = ""
      · exact ⟨_, generateUnsignedBuyingPSBTBase64_error cfg arg l _
          (by simp [buildBuyingPsbt, hb, haddr, htr]; rfl)⟩
      · cases hpo : parseOutpoint l.seller.ordItem.output with
        | none =>
          exact ⟨_, generateUnsignedBuyingPSBTBase64_error cfg arg l _
            (by simp [buildBuyingPsbt, hb, haddr, htr, hd, hp2, hoff, hpo]; rfl)⟩
        | some pr =>
          exact ⟨_, generateUnsignedBuyingPSBTBase64_error cfg arg l _
            (by simp [buildBuyingPsbt, hb, haddr, htr, hd, hp2, hoff, hpo,
              if_pos hchange]; rfl)⟩
  · intro l' h
    cases hb2 : buildBuyingPsbt cfg arg l with
    | error e =>
      rw [generateUnsignedBuyingPSBTBase64_error cfg arg l e hb2] at h
      cases h
    | ok p =>
      obtain ⟨b, d1, d2, pays, off, hby, -, -, -, -, -⟩ :=
        buildBuyingPsbt_ok_struct cfg arg l p hb2
      refine ⟨p, b, rfl, hby, ?_⟩
      simp only [generateUnsignedBuyingPSBTBase64, hb2, hby, Option.map_some,
        Except.ok.injEq] at h
      exact h.symm

-- =========================================================================
-- Concrete fixtures and witnesses
-- =========================================================================

/-- A listed inscription: id tok1, owner ownerW, at offset 0 of a
10000-sat output abc:0. -/
def ordItemW : IOrdItem :=
  ⟨"tok1", "ownerW", "abc:0:0", "abc:0", 10000⟩

/-- A seller asking 100000 sats at 100 bp maker fee. -/
def sellerW : SellerState :=
  ⟨100, 100000, ordItemW, "recvW", none⟩

/-- First 600-sat dummy UTXO of the buyer. -/
def dummy1W : MappedUtxo := ⟨"d1tx", 0, 600, true⟩

/-- Second 600-sat dummy UTXO of the buyer. -/
def dummy2W : MappedUtxo := ⟨"d2tx", 1, 600, true⟩

/-- A 1-BTC payment UTXO of the buyer. -/
def payW : Utxo := ⟨"paytx", 0, 100000000, true⟩

/-- A buyer at 200 bp taker fee holding the two dummies and the
payment UTXO. -/
def buyerW : BuyerState :=
  ⟨200, "buyerW", "breceiveW", "hourFee", some [dummy1W, dummy2W],
    some [payW], none, none⟩

/-- The complete listing for the concrete run. -/
def listingW : Listing := ⟨sellerW, some buyerW⟩

/-- A configuration with the constant.ts default dummy bounds, a
configured platform fee address and a flat 2 sat/byte fee oracle. -/
def cfgW : Config :=
  { dummyUtxoValue := 600
    dummyUtxoMaxValue := 1000
    dummyUtxoMinValue := 580
    ordinalsPostageValue := 10000
    platformFeeAddress := "platW"
    feeRate := fun _ => 2 }

/-- The buying PSBT built for the concrete listing. -/
def psbtW : Psbt :=
  match buildBuyingPsbt cfgW "" listingW with
  | Except.ok p => p
  | Except.error _ => default

/-- C1 witness: the concrete run succeeds and output 0 recombines the
two 600-sat dummies plus offset 0, while output 1 pays the token
receive address the 10000-sat postage. -/
theorem buying_psbt_dummy_and_postage_outputs_witness :
    buildBuyingPsbt cfgW "" listingW = Except.ok psbtW ∧
    psbtW.outputs[0]? = some ⟨"buyerW", 1200⟩ ∧
    psbtW.outputs[1]? = some ⟨"breceiveW", 10000⟩ :=
  have hp : buildBuyingPsbt cfgW "" listingW = Except.ok psbtW := rfl
  have h := buying_psbt_dummy_and_postage_outputs cfgW "" listingW buyerW
    dummy1W dummy2W [payW] 0 psbtW rfl rfl rfl rfl hp
  ⟨hp, h.1.trans (by decide), h.2.trans (by decide)⟩

/-- The seller-half PSBT generated for the concrete listing. -/
def sellerPsbtGenW : Psbt :=
  match generateUnsignedListingPSBT listingW with
  | Except.ok p => p
  | Except.error _ => default

/-- C2 witness: both halves of the concrete run carry the 109000-sat
seller payout, the buying half at output index 2. -/
theorem seller_payout_consistency_witness :
    generateUnsignedListingPSBT listingW = Except.ok sellerPsbtGenW ∧
    sellerPsbtGenW.outputs = [⟨"recvW", 109000⟩] ∧
    psbtW.outputs[2]? = some ⟨"recvW", 109000⟩ :=
  have hs : generateUnsignedListingPSBT listingW = Except.ok sellerPsbtGenW := rfl
  have hb : buildBuyingPsbt cfgW "" listingW = Except.ok psbtW := rfl
  have h := seller_payout_consistency cfgW "" listingW sellerPsbtGenW psbtW hs hb
  ⟨hs, h.1.trans (by decide), h.2.trans (by decide)⟩

/-- A verifier environment whose PSBT, analysis and providers satisfy
all six checks for the concrete request. -/
def verifyEnvW : VerifyEnv :=
  { psbt :=
      { inputs := [⟨"abc", 0⟩]
        dataInputs := [⟨none, none, some 131⟩]
        outputs := [⟨"recvW", 109000⟩]
        version := 2
        locktime := 0 }
    analyzeIsFinal := some true
    getTokenByOutput := fun s => if s = "abc:0" then some ordItemW else none
    makerFeeProvider := some (fun _ => 100)
    prevOutAddress := fun _ _ => "ownerW" }

/-- The listing request matching verifyEnvW. -/
def reqW : ListingRequest := ⟨100000, "tok1", "recvW"⟩

/-- C3 witness: on the concrete environment all six checks pass and the
verifier returns normally. -/
theorem verify_signed_listing_iff_witness :
    verifySignedListingPSBTBase64 verifyEnvW reqW = VerifyResult.ok :=
  (verify_signed_listing_iff verifyEnvW reqW (by decide)).1.mpr (by decide)

/-- A provider environment indexing outpoint a:0 as carrying the
concrete inscription. -/
def provEnvW : ProviderEnv :=
  { getTokenByOutput := fun s =>
      if s = "a:0" then Except.ok (some ordItemW) else Except.ok none
    getVerboseTx := fun _ => ⟨1, []⟩ }

/-- The confirmed UTXO at the indexed outpoint. -/
def utxoW : Utxo := ⟨"a", 0, 700, true⟩

/-- C4 witness: the confirmed UTXO at an indexed outpoint is reported
as inscription-bearing. -/
theorem utxo_inscription_policy_witness :
    doesUtxoContainInscription provEnvW utxoW = true :=
  ((utxo_inscription_policy provEnvW utxoW).1 rfl).mpr (Or.inl ⟨ordItemW, rfl⟩)

/-- A signed seller PSBT with one finalized input. -/
def sellerSignedW : Psbt :=
  ⟨[⟨"stx", 0⟩], [⟨some "aa", some [9, 9], some 131⟩], [⟨"recvW", 109000⟩], 2, 0⟩

/-- Default empty PSBT input metadata. -/
def metaW : InputMeta := ⟨none, none, none⟩

/-- A signed buyer PSBT with four inputs and a placeholder at slot 2. -/
def buyerSignedW : Psbt :=
  ⟨[⟨"d1tx", 0⟩, ⟨"d2tx", 1⟩, ⟨"ph", 0⟩, ⟨"paytx", 0⟩],
    [metaW, metaW, metaW, metaW], [⟨"buyerW", 1200⟩], 2, 0⟩

/-- C5 witness: merging the concrete PSBTs succeeds, puts the seller
input at slot 2 and leaves the outputs untouched. -/
theorem merge_frame_witness :
    ∃ r, mergeSignedBuyingPSBTBase64 sellerSignedW buyerSignedW = some r ∧
      r.inputs[2]? = some ⟨"stx", 0⟩ ∧ r.outputs = buyerSignedW.outputs := by
  obtain ⟨r, h1, h2, -, -, -, h6, -, -, -⟩ :=
    merge_frame sellerSignedW buyerSignedW ⟨"stx", 0⟩
      ⟨some "aa", some [9, 9], some 131⟩ rfl rfl (by decide) (by decide)
  exact ⟨r, h1, h2, h6⟩

/-- C6 witness: the concrete run pays the 3000-sat platform fee
(floor(100000 times 300 bp)) to the configured address at index 3. -/
theorem platform_fee_output_witness :
    psbtW.outputs[3]? = some ⟨"platW", 3000⟩ :=
  have h := platform_fee_output cfgW "" listingW buyerW dummy1W dummy2W
    [payW] 0 psbtW rfl rfl rfl rfl rfl (by decide)
  (h.1 (by decide)).trans (by decide)

/-- The payment UTXO list of the C7 witness run. -/
def payUtxosW : List Utxo := [⟨"w1", 0, 100000, true⟩]

/-- C7 witness: with one 100000-sat candidate, no taint, target 5000
and base 3 inputs, 6 outputs at 2 sat/byte, selection succeeds with the
single candidate. -/
theorem select_payment_utxos_spec_witness :
    selectPaymentUTXOs cfgW (fun _ => false) payUtxosW 5000 3 6 "hourFee"
      = Except.ok [⟨"w1", 0, 100000, true⟩] :=
  have hcand : paymentCandidates cfgW payUtxosW = [⟨"w1", 0, 100000, true⟩] := by
    simp [paymentCandidates, payUtxosW, cfgW]
  have hloop : selectPaymentLoop (fun _ => false) 5000 3 6 (cfgW.feeRate "hourFee")
      (paymentCandidates cfgW payUtxosW) [] 0
        = ([⟨"w1", 0, 100000, true⟩], 100000) := by
    rw [hcand]
    decide
  have h := select_payment_utxos_spec cfgW (fun _ => false) payUtxosW 5000 3 6
    "hourFee" [⟨"w1", 0, 100000, true⟩] 100000 hloop
  h.1.mpr (by decide)

/-- C9 witness: the amended characterization classifies the concrete
foreign-HRP bech32 address as p2wpkh under the bc chain. -/
theorem address_type_amended_witness :
    getAddressType codecX "xx1qtest" mainnetLike = AddressType.p2wpkh :=
  have h := (address_type_amended codecX "xx1qtest" mainnetLike).2.2.1
    ⟨"xx", 0, 20⟩ (by decide) (by decide) (by decide) (by decide)
  h.trans (by decide)

/-- A listing with no buyer section. -/
def listingNoBuyerW : Listing := ⟨sellerW, none⟩

/-- C10 witness: generating a buying PSBT for a listing without a buyer
section errors out. -/
theorem buying_psbt_error_paths_witness :
    ∃ e, generateUnsignedBuyingPSBTBase64 cfgW "" listingNoBuyerW
      = Except.error e :=
  (buying_psbt_error_paths cfgW "" listingNoBuyerW).1 rfl
